import Mathlib

/-!
# Vertex stage of the one-pass blur

A shallow embedding of `src/blurs/vertex-shader-blur-one-pass.h`.

The shader is written in Cg.  Its only function, `main_vertex`, uses three
scalar operations of the language on `float`: `+` and `*` (inside the library
function `mul`) and `/`.  The embedding keeps the scalar type abstract: every
record and `main_vertex` itself are parametrised by an arithmetic type `α`
carrying `Add`, `Mul` and `Div`.  Four readings of `float` are then used:

* any `α` at all, for the statements that do not depend on what the scalar
  operations compute (pass-through, unused arguments, the shape of the formula);
* `Guarded`, exact rational arithmetic in which a division by zero is the one
  undefined operation, for the statements that are about exact arithmetic or
  about which operations are defined;
* `Ext`, exact rational arithmetic completed with the special values of
  IEEE 754 (signed infinities and NaN), in which every operation returns a value;
* `Binary32`, the arithmetic of the code: the rules of `Ext` for the special
  values, and every finite result rounded to the nearest binary32 value, ties
  to even, with overflow to an infinity and gradual underflow to zero.

Signed zeros are not modelled: a zero is the rational `0`.
-/

namespace BlurOnePass

/-! ## Vector and matrix types of Cg -/

/-- Cg `float2`: a pair of scalars, fields `x` and `y`. -/
structure float2 (α : Type) where
  x : α
  y : α
deriving DecidableEq, Repr

/-- Cg `float4`: four scalars, fields `x`, `y`, `z`, `w`. -/
structure float4 (α : Type) where
  x : α
  y : α
  z : α
  w : α
deriving DecidableEq, Repr

/-- Cg `float4x4`: four rows, each a `float4` (`M[i]` is row `i`). -/
structure float4x4 (α : Type) where
  r0 : float4 α
  r1 : float4 α
  r2 : float4 α
  r3 : float4 α
deriving DecidableEq, Repr

/-- Cg `/` on `float2` divides component by component. -/
instance float2.instDiv {α : Type} [Div α] : Div (float2 α) :=
  ⟨fun a b => { x := a.x / b.x, y := a.y / b.y }⟩

/-- Cg library function `dot` on `float4`. -/
def dot {α : Type} [Add α] [Mul α] (a b : float4 α) : α :=
  a.x * b.x + a.y * b.y + a.z * b.z + a.w * b.w

/-- Cg library function `mul(float4x4, float4)`: the matrix times the column
vector; component `i` of the result is `dot` of row `i` with the vector. -/
def mul {α : Type} [Add α] [Mul α] (M : float4x4 α) (v : float4 α) : float4 α :=
  { x := dot M.r0 v, y := dot M.r1 v, z := dot M.r2 v, w := dot M.r3 v }

/-- Component `i` of a `float4`. -/
def float4.get {α : Type} (v : float4 α) : Fin 4 → α
  | 0 => v.x
  | 1 => v.y
  | 2 => v.z
  | 3 => v.w

/-- Row `i` of a `float4x4`. -/
def float4x4.row {α : Type} (M : float4x4 α) : Fin 4 → float4 α
  | 0 => M.r0
  | 1 => M.r1
  | 2 => M.r2
  | 3 => M.r3

/-- A `float4x4` as a Mathlib matrix: entry `(i, j)` is component `j` of row `i`. -/
def float4x4.toMatrix {α : Type} (M : float4x4 α) : Matrix (Fin 4) (Fin 4) α :=
  Matrix.of fun i j => (M.row i).get j

/-! ## The records of the shader -/

/-- The uniform block `struct input` (lines 41-49). -/
structure input (α : Type) where
  video_size : float2 α
  texture_size : float2 α
  output_size : float2 α
  frame_count : α
  frame_direction : α
  frame_rotation : α
deriving DecidableEq, Repr

/-- The result record `struct out_vertex` (lines 51-56). -/
structure out_vertex (α : Type) where
  position : float4 α
  tex_uv : float2 α
  blur_dxdy : float2 α
deriving DecidableEq, Repr

/-- Apply `f` to both components. -/
def float2.map {α β : Type} (f : α → β) (v : float2 α) : float2 β :=
  { x := f v.x, y := f v.y }

/-- Apply `f` to the four components. -/
def float4.map {α β : Type} (f : α → β) (v : float4 α) : float4 β :=
  { x := f v.x, y := f v.y, z := f v.z, w := f v.w }

/-- Apply `f` to the sixteen entries. -/
def float4x4.map {α β : Type} (f : α → β) (M : float4x4 α) : float4x4 β :=
  { r0 := M.r0.map f, r1 := M.r1.map f, r2 := M.r2.map f, r3 := M.r3.map f }

/-- Apply `f` to every scalar of the uniform block. -/
def input.map {α β : Type} (f : α → β) (IN : input α) : input β :=
  { video_size := IN.video_size.map f
    texture_size := IN.texture_size.map f
    output_size := IN.output_size.map f
    frame_count := f IN.frame_count
    frame_direction := f IN.frame_direction
    frame_rotation := f IN.frame_rotation }

/-! ## The vertex shader -/

/-- The function `main_vertex` (lines 61-88). -/
def main_vertex {α : Type} [Add α] [Mul α] [Div α]
    (position : float4 α) (color : float4 α) (tex_uv : float2 α)
    (modelViewProj : float4x4 α) (IN : input α) : out_vertex α :=
  let dxdy_scale : float2 α := IN.video_size / IN.output_size
  { position := mul modelViewProj position
    tex_uv := tex_uv
    blur_dxdy := dxdy_scale / IN.texture_size }

/-! ## Guarded exact arithmetic -/

/-- A rational scalar, or the mark of an undefined operation. -/
inductive Guarded where
  | undef : Guarded
  | val (q : ℚ) : Guarded
deriving DecidableEq, Repr

namespace Guarded

/-- Addition; undefined operands propagate. -/
def add : Guarded → Guarded → Guarded
  | val a, val b => val (a + b)
  | _, _ => undef

/-- Multiplication; undefined operands propagate. -/
def mul : Guarded → Guarded → Guarded
  | val a, val b => val (a * b)
  | _, _ => undef

/-- Division of exact arithmetic: undefined when the divisor is zero;
undefined operands propagate.  The quotient is not rounded: this is the
division of the statements about exact arithmetic and about which operations
are defined, not the division of the code, which is `Binary32.div`. -/
def div : Guarded → Guarded → Guarded
  | val a, val b => if b = 0 then undef else val (a / b)
  | _, _ => undef

instance : Add Guarded := ⟨Guarded.add⟩
instance : Mul Guarded := ⟨Guarded.mul⟩
instance : Div Guarded := ⟨Guarded.div⟩

/-- The scalar is the result of defined operations only. -/
def isDef : Guarded → Bool
  | val _ => true
  | undef => false

end Guarded

/-! ## Exact arithmetic with the IEEE 754 special values -/

/-- A finite rational, an infinity with its sign (`neg = true` is `-∞`), or NaN. -/
inductive Ext where
  | fin (q : ℚ) : Ext
  | inf (neg : Bool) : Ext
  | nan : Ext
deriving DecidableEq, Repr

namespace Ext

/-- Addition with the IEEE 754 rules for the special values. -/
def add : Ext → Ext → Ext
  | nan, _ => nan
  | _, nan => nan
  | inf s, inf t => if s = t then inf s else nan
  | inf s, fin _ => inf s
  | fin _, inf t => inf t
  | fin a, fin b => fin (a + b)

/-- Multiplication with the IEEE 754 rules for the special values. -/
def mul : Ext → Ext → Ext
  | nan, _ => nan
  | _, nan => nan
  | inf s, inf t => inf (xor s t)
  | inf s, fin b => if b = 0 then nan else inf (xor s (decide (b < 0)))
  | fin a, inf t => if a = 0 then nan else inf (xor (decide (a < 0)) t)
  | fin a, fin b => fin (a * b)

/-- Division with the IEEE 754 rules for the special values: a non-zero finite
value or an infinity divided by zero is an infinity, `0 / 0` and `∞ / ∞` are NaN.
A finite quotient is exact here; `Binary32.div` rounds it. -/
def div : Ext → Ext → Ext
  | nan, _ => nan
  | _, nan => nan
  | inf _, inf _ => nan
  | inf s, fin b => inf (xor s (decide (b < 0)))
  | fin _, inf _ => fin 0
  | fin a, fin b =>
    if b = 0 then (if a = 0 then nan else inf (decide (a < 0))) else fin (a / b)

instance : Add Ext := ⟨Ext.add⟩
instance : Mul Ext := ⟨Ext.mul⟩
instance : Div Ext := ⟨Ext.div⟩

end Ext

/-! ## Binary32 arithmetic: the rules of `Ext`, then rounding -/

/-- The integer nearest to `x`, the even one of the two when `x` is half-way. -/
def roundHalfEven (x : ℚ) : ℤ :=
  if x - ⌊x⌋ < 1 / 2 then ⌊x⌋
  else if 1 / 2 < x - ⌊x⌋ then ⌊x⌋ + 1
  else if ⌊x⌋ % 2 = 0 then ⌊x⌋ else ⌊x⌋ + 1

/-- The exponent of the binade of a magnitude `a`: `⌊log₂ a⌋`, and `-126`
for the subnormal range below `2^(-126)`. -/
def binade (a : ℚ) : ℤ := max (Int.log 2 a) (-126)

/-- A magnitude rounded to 24 significant bits: the nearest multiple of
`2^(binade a - 23)`, ties to even, with no bound on the exponent above. -/
def roundMag (a : ℚ) : ℚ :=
  roundHalfEven (a / 2 ^ (binade a - 23)) * 2 ^ (binade a - 23)

/-- The binary32 value nearest to the rational `q`, ties to even: an infinity
when the rounded magnitude reaches `2^128`. -/
def round32 (q : ℚ) : Ext :=
  if 2 ^ 128 ≤ roundMag |q| then Ext.inf (decide (q < 0))
  else Ext.fin (if q < 0 then -roundMag |q| else roundMag |q|)

/-- The rational `q` is a binary32 value: rounding leaves it unchanged. -/
def isBinary32 (q : ℚ) : Prop := round32 q = Ext.fin q

instance (q : ℚ) : Decidable (isBinary32 q) := by
  unfold isBinary32
  infer_instance

/-- Rounding of a result: a finite result is rounded, a special value is kept. -/
def Ext.round : Ext → Ext
  | Ext.fin q => round32 q
  | Ext.inf s => Ext.inf s
  | Ext.nan => Ext.nan

/-- The order of IEEE 754, `a ≤ b`: false as soon as an operand is NaN. -/
def Ext.le : Ext → Ext → Bool
  | Ext.nan, _ => false
  | _, Ext.nan => false
  | Ext.fin a, Ext.fin b => decide (a ≤ b)
  | Ext.fin _, Ext.inf s => !s
  | Ext.inf s, Ext.fin _ => s
  | Ext.inf s, Ext.inf t => s || !t

/-- A Cg `float` read as a binary32 value.  Every result of an operation is
rounded, hence a binary32 value or a special value; an operand `Ext.fin q` is a
binary32 value when `isBinary32 q` holds. -/
structure Binary32 where
  toExt : Ext
deriving DecidableEq, Repr

namespace Binary32

/-- Sum, rounded. -/
def add (a b : Binary32) : Binary32 := ⟨(a.toExt + b.toExt).round⟩

/-- Product, rounded. -/
def mul (a b : Binary32) : Binary32 := ⟨(a.toExt * b.toExt).round⟩

/-- Quotient, rounded. -/
def div (a b : Binary32) : Binary32 := ⟨(a.toExt / b.toExt).round⟩

instance : Add Binary32 := ⟨Binary32.add⟩
instance : Mul Binary32 := ⟨Binary32.mul⟩
instance : Div Binary32 := ⟨Binary32.div⟩

/-- The binary32 value of a rational that needs no rounding. -/
def ofRat (q : ℚ) : Binary32 := ⟨Ext.fin q⟩

end Binary32

/-! ## The step written with one division, and with the divisions swapped -/

/-- Cg `*` on `float2` multiplies component by component. -/
instance float2.instMul {α : Type} [Mul α] : Mul (float2 α) :=
  ⟨fun a b => { x := a.x * b.x, y := a.y * b.y }⟩

/-- The step as a single division by the product of the two divisors:
`video_size / (output_size * texture_size)`. -/
def blur_dxdy_by_product {α : Type} [Mul α] [Div α] (IN : input α) : float2 α :=
  IN.video_size / (IN.output_size * IN.texture_size)

/-- The step with the two divisions in the other order:
`(video_size / texture_size) / output_size`. -/
def blur_dxdy_swapped {α : Type} [Div α] (IN : input α) : float2 α :=
  (IN.video_size / IN.texture_size) / IN.output_size

/-! ## Shared lemmas -/

/-- Guarded product of two defined scalars. -/
theorem Guarded.val_mul_val (a b : ℚ) :
    (Guarded.val a * Guarded.val b : Guarded) = Guarded.val (a * b) := rfl

/-- Whatever the arithmetic, `blur_dxdy` is the two-step quotient of the sizes. -/
theorem main_vertex_blur_dxdy {α : Type} [Add α] [Mul α] [Div α]
    (position color : float4 α) (tex_uv : float2 α)
    (modelViewProj : float4x4 α) (IN : input α) :
    (main_vertex position color tex_uv modelViewProj IN).blur_dxdy =
      { x := IN.video_size.x / IN.output_size.x / IN.texture_size.x
        y := IN.video_size.y / IN.output_size.y / IN.texture_size.y } := rfl

/-- Guarded division of two defined scalars by a non-zero divisor. -/
theorem Guarded.val_div_val {a b : ℚ} (hb : b ≠ 0) :
    (Guarded.val a / Guarded.val b : Guarded) = Guarded.val (a / b) := by
  show Guarded.div _ _ = _
  simp [Guarded.div, hb]

/-- Guarded division by zero is undefined. -/
theorem Guarded.div_val_zero (a : Guarded) : (a / Guarded.val 0 : Guarded) = Guarded.undef := by
  show Guarded.div _ _ = _
  cases a <;> simp [Guarded.div]

/-- Guarded division of an undefined scalar is undefined. -/
theorem Guarded.undef_div (b : Guarded) : (Guarded.undef / b : Guarded) = Guarded.undef := by
  show Guarded.div _ _ = _
  cases b <;> simp [Guarded.div]

/-- Guarded division is undefined exactly when an operand is undefined or the
divisor is zero. -/
theorem Guarded.div_eq_undef_iff (a b : Guarded) :
    (a / b : Guarded) = Guarded.undef ↔
      a = Guarded.undef ∨ b = Guarded.undef ∨ b = Guarded.val 0 := by
  show Guarded.div _ _ = _ ↔ _
  cases a <;> cases b <;> simp [Guarded.div]

/-- An integer less than a half away from `x` is the rounding of `x`. -/
theorem roundHalfEven_eq_of_abs_lt {x : ℚ} {n : ℤ} (h : |x - n| < 1 / 2) :
    roundHalfEven x = n := by
  rw [abs_lt] at h
  obtain ⟨h1, h2⟩ := h
  unfold roundHalfEven
  by_cases hx : (n : ℚ) ≤ x
  · have hf : ⌊x⌋ = n := by
      rw [Int.floor_eq_iff]
      constructor <;> linarith
    rw [hf, if_pos (by linarith)]
  · push_neg at hx
    have hf : ⌊x⌋ = n - 1 := by
      rw [Int.floor_eq_iff]
      push_cast
      constructor <;> linarith
    rw [hf]
    push_cast
    rw [if_neg (by linarith), if_pos (by linarith)]
    ring

/-- An integer rounds to itself. -/
theorem roundHalfEven_intCast (n : ℤ) : roundHalfEven (n : ℚ) = n :=
  roundHalfEven_eq_of_abs_lt (by simp)

/-- Rounding never goes below the floor. -/
theorem floor_le_roundHalfEven (x : ℚ) : ⌊x⌋ ≤ roundHalfEven x := by
  unfold roundHalfEven
  split_ifs <;> omega

/-- Rounding never goes above the floor plus one. -/
theorem roundHalfEven_le_floor_add_one (x : ℚ) : roundHalfEven x ≤ ⌊x⌋ + 1 := by
  unfold roundHalfEven
  split_ifs <;> omega

/-- Rounding to the nearest integer is monotone. -/
theorem roundHalfEven_mono {x y : ℚ} (h : x ≤ y) : roundHalfEven x ≤ roundHalfEven y := by
  have hfl : ⌊x⌋ ≤ ⌊y⌋ := Int.floor_mono h
  rcases lt_or_eq_of_le hfl with hlt | heq
  · calc roundHalfEven x ≤ ⌊x⌋ + 1 := roundHalfEven_le_floor_add_one x
      _ ≤ ⌊y⌋ := hlt
      _ ≤ roundHalfEven y := floor_le_roundHalfEven y
  · unfold roundHalfEven
    rw [← heq]
    split_ifs <;> first | omega | (exfalso; linarith)

/-- The upper end of a binade is `2^24` units in the last place. -/
theorem two_zpow_succ (e : ℤ) : (2 : ℚ) ^ (e + 1) = 2 ^ 24 * 2 ^ (e - 23) := by
  rw [show e + 1 = 24 + (e - 23) by ring, zpow_add₀ (two_ne_zero)]
  norm_num

/-- The lower end of a binade is `2^23` units in the last place. -/
theorem two_zpow_self (e : ℤ) : (2 : ℚ) ^ e = 2 ^ 23 * 2 ^ (e - 23) := by
  rw [show e = 23 + (e - 23) by ring, zpow_add₀ (two_ne_zero)]
  norm_num

/-- The unit in the last place is positive. -/
theorem ulp_pos (e : ℤ) : (0 : ℚ) < 2 ^ (e - 23) := zpow_pos (by norm_num) _

/-- A magnitude lies below the upper end of its binade. -/
theorem lt_two_zpow_binade_succ (a : ℚ) : a < 2 ^ (binade a + 1) := by
  have h1 : a < ((2 : ℕ) : ℚ) ^ (Int.log 2 a + 1) := Int.lt_zpow_succ_log_self (by norm_num) a
  have h2 : ((2 : ℕ) : ℚ) ^ (Int.log 2 a + 1) ≤ ((2 : ℕ) : ℚ) ^ (binade a + 1) :=
    zpow_le_zpow_right₀ (by norm_num) (by unfold binade; omega)
  have h3 := lt_of_lt_of_le h1 h2
  simpa using h3

/-- The binade exponent is monotone on positive magnitudes. -/
theorem binade_mono {a b : ℚ} (ha : 0 < a) (h : a ≤ b) : binade a ≤ binade b := by
  unfold binade
  exact max_le_max (Int.log_mono_right ha h) le_rfl

/-- Above the subnormal range a magnitude is at least the lower end of its binade. -/
theorem two_zpow_binade_le {a : ℚ} (ha : 0 < a) (h : -126 < binade a) : 2 ^ binade a ≤ a := by
  have hb : binade a = Int.log 2 a := by
    unfold binade at h ⊢
    omega
  rw [hb]
  have := Int.zpow_log_le_self (b := 2) (r := a) (by norm_num) ha
  simpa using this

/-- The binade exponent of a magnitude bracketed by two powers of two. -/
theorem binade_eq {a : ℚ} {e : ℤ} (ha : 0 < a) (he : -126 ≤ e)
    (hlo : 2 ^ e ≤ a ∨ e = -126) (hhi : a < 2 ^ (e + 1)) : binade a = e := by
  have h1 : Int.log 2 a < e + 1 := by
    rw [← Int.lt_zpow_iff_log_lt (by norm_num) ha]
    simpa using hhi
  unfold binade
  rcases hlo with hlo | hlo
  · have h2 : e ≤ Int.log 2 a := by
      rw [← Int.zpow_le_iff_le_log (by norm_num) ha]
      simpa using hlo
    omega
  · omega

/-- A rounded magnitude is non-negative. -/
theorem roundMag_nonneg {a : ℚ} (ha : 0 ≤ a) : 0 ≤ roundMag a := by
  unfold roundMag
  have hx : (0 : ℚ) ≤ a / 2 ^ (binade a - 23) := div_nonneg ha (le_of_lt (ulp_pos _))
  have h0 : (0 : ℤ) ≤ roundHalfEven (a / 2 ^ (binade a - 23)) := by
    have := roundHalfEven_mono hx
    rwa [show ((0 : ℚ)) = ((0 : ℤ) : ℚ) by simp, roundHalfEven_intCast] at this
  exact mul_nonneg (by exact_mod_cast h0) (le_of_lt (ulp_pos _))

/-- A rounded magnitude is at most the upper end of the binade. -/
theorem roundMag_le (a : ℚ) : roundMag a ≤ 2 ^ (binade a + 1) := by
  unfold roundMag
  rw [two_zpow_succ]
  have hx : a / 2 ^ (binade a - 23) ≤ ((2 ^ 24 : ℤ) : ℚ) := by
    rw [div_le_iff₀ (ulp_pos _), show (((2 ^ 24 : ℤ)) : ℚ) = 2 ^ 24 by norm_cast,
      ← two_zpow_succ]
    exact le_of_lt (lt_two_zpow_binade_succ a)
  have h := roundHalfEven_mono hx
  rw [roundHalfEven_intCast] at h
  have h2 : (roundHalfEven (a / 2 ^ (binade a - 23)) : ℚ) ≤ 2 ^ 24 := by exact_mod_cast h
  exact mul_le_mul_of_nonneg_right h2 (le_of_lt (ulp_pos _))

/-- A rounded magnitude is at least the lower end of the binade. -/
theorem le_roundMag {a : ℚ} (h : 2 ^ binade a ≤ a) : 2 ^ binade a ≤ roundMag a := by
  unfold roundMag
  nth_rewrite 1 [two_zpow_self]
  have hx : ((2 ^ 23 : ℤ) : ℚ) ≤ a / 2 ^ (binade a - 23) := by
    rw [le_div_iff₀ (ulp_pos _), show (((2 ^ 23 : ℤ)) : ℚ) = 2 ^ 23 by norm_cast,
      ← two_zpow_self]
    exact h
  have h1 := roundHalfEven_mono hx
  rw [roundHalfEven_intCast] at h1
  have h2 : (2 ^ 23 : ℚ) ≤ (roundHalfEven (a / 2 ^ (binade a - 23)) : ℚ) := by exact_mod_cast h1
  exact mul_le_mul_of_nonneg_right h2 (le_of_lt (ulp_pos _))

/-- Zero rounds to zero. -/
theorem roundMag_zero : roundMag 0 = 0 := by
  unfold roundMag
  rw [zero_div, show ((0 : ℚ)) = ((0 : ℤ) : ℚ) by simp, roundHalfEven_intCast]
  simp

/-- Rounding of magnitudes is monotone. -/
theorem roundMag_mono {a b : ℚ} (ha : 0 ≤ a) (h : a ≤ b) : roundMag a ≤ roundMag b := by
  rcases eq_or_lt_of_le ha with h0 | hpos
  · rw [← h0, roundMag_zero]
    exact roundMag_nonneg (le_trans ha h)
  · have hb : 0 < b := lt_of_lt_of_le hpos h
    rcases eq_or_lt_of_le (binade_mono hpos h) with heq | hlt
    · unfold roundMag
      rw [heq]
      have hx : a / 2 ^ (binade b - 23) ≤ b / 2 ^ (binade b - 23) :=
        div_le_div_of_nonneg_right h (le_of_lt (ulp_pos _))
      have h1 := roundHalfEven_mono hx
      have h2 : (roundHalfEven (a / 2 ^ (binade b - 23)) : ℚ)
          ≤ (roundHalfEven (b / 2 ^ (binade b - 23)) : ℚ) := by exact_mod_cast h1
      exact mul_le_mul_of_nonneg_right h2 (le_of_lt (ulp_pos _))
    · have hlow : -126 < binade b := by
        have : -126 ≤ binade a := by unfold binade; exact le_max_right _ _
        omega
      calc roundMag a ≤ 2 ^ (binade a + 1) := roundMag_le a
        _ ≤ 2 ^ binade b := zpow_le_zpow_right₀ (by norm_num) (by omega)
        _ ≤ roundMag b := le_roundMag (two_zpow_binade_le hb hlow)

/-- The rounded magnitude, from its binade and its nearest integer multiple. -/
theorem roundMag_eq {a : ℚ} {e n : ℤ} (ha : 0 < a) (he : -126 ≤ e)
    (hlo : 2 ^ e ≤ a ∨ e = -126) (hhi : a < 2 ^ (e + 1))
    (hn : |a / 2 ^ (e - 23) - n| < 1 / 2) : roundMag a = n * 2 ^ (e - 23) := by
  unfold roundMag
  rw [binade_eq ha he hlo hhi, roundHalfEven_eq_of_abs_lt hn]

/-- A power of two above the subnormal range needs no rounding. -/
theorem roundMag_zpow {k : ℤ} (hk : -126 ≤ k) : roundMag (2 ^ k) = 2 ^ k := by
  have h := roundMag_eq (a := 2 ^ k) (e := k) (n := 2 ^ 23) (zpow_pos (by norm_num) k) hk
    (Or.inl le_rfl) (zpow_lt_zpow_right₀ (by norm_num) (by omega))
    (by
      nth_rewrite 1 [two_zpow_self k]
      rw [mul_div_assoc, div_self (ne_of_gt (ulp_pos k))]
      norm_num)
  rw [h]
  push_cast
  exact (two_zpow_self k).symm

/-! ## Lemmas on binary32 arithmetic -/

/-- Rounding of a non-negative rational: no sign to restore. -/
theorem round32_of_nonneg {q : ℚ} (hq : 0 ≤ q) :
    round32 q = if 2 ^ 128 ≤ roundMag q then Ext.inf false else Ext.fin (roundMag q) := by
  unfold round32
  rw [abs_of_nonneg hq]
  have hneg : ¬ q < 0 := not_lt.mpr hq
  simp [hneg]

/-- Zero is a binary32 value. -/
theorem round32_zero : round32 0 = Ext.fin 0 := by
  rw [round32_of_nonneg le_rfl, roundMag_zero]
  norm_num

/-- A non-negative rational rounds to `+∞` or to a non-negative finite value. -/
theorem round32_nonneg_cases {q : ℚ} (hq : 0 ≤ q) :
    round32 q = Ext.inf false ∨ ∃ r : ℚ, 0 ≤ r ∧ round32 q = Ext.fin r := by
  rw [round32_of_nonneg hq]
  by_cases h : (2 : ℚ) ^ 128 ≤ roundMag q
  · left
    rw [if_pos h]
  · right
    exact ⟨roundMag q, roundMag_nonneg hq, by rw [if_neg h]⟩

/-- Rounding to binary32 is monotone on the non-negative rationals. -/
theorem round32_mono {p q : ℚ} (hp : 0 ≤ p) (h : p ≤ q) :
    (round32 p).le (round32 q) = true := by
  have hq : 0 ≤ q := le_trans hp h
  have hm := roundMag_mono hp h
  rw [round32_of_nonneg hp, round32_of_nonneg hq]
  by_cases h1 : (2 : ℚ) ^ 128 ≤ roundMag p
  · have h2 : (2 : ℚ) ^ 128 ≤ roundMag q := le_trans h1 hm
    rw [if_pos h1, if_pos h2]
    rfl
  · by_cases h2 : (2 : ℚ) ^ 128 ≤ roundMag q
    · rw [if_neg h1, if_pos h2]
      rfl
    · rw [if_neg h1, if_neg h2]
      simpa [Ext.le] using hm

/-- The binary32 value of a positive rational, from its binade and its nearest
integer multiple of the unit in the last place. -/
theorem round32_eq_fin {q : ℚ} {e n : ℤ} (hq : 0 < q) (he : -126 ≤ e)
    (hlo : 2 ^ e ≤ q ∨ e = -126) (hhi : q < 2 ^ (e + 1))
    (hn : |q / 2 ^ (e - 23) - n| < 1 / 2) (hov : (n : ℚ) * 2 ^ (e - 23) < 2 ^ 128) :
    round32 q = Ext.fin (n * 2 ^ (e - 23)) := by
  rw [round32_of_nonneg (le_of_lt hq), roundMag_eq hq he hlo hhi hn, if_neg (not_le.mpr hov)]

/-- A positive rational whose rounded magnitude reaches `2^128` overflows. -/
theorem round32_eq_inf {q : ℚ} {e n : ℤ} (hq : 0 < q) (he : -126 ≤ e)
    (hlo : 2 ^ e ≤ q ∨ e = -126) (hhi : q < 2 ^ (e + 1))
    (hn : |q / 2 ^ (e - 23) - n| < 1 / 2) (hov : (2 : ℚ) ^ 128 ≤ n * 2 ^ (e - 23)) :
    round32 q = Ext.inf false := by
  rw [round32_of_nonneg (le_of_lt hq), roundMag_eq hq he hlo hhi hn, if_pos hov]

/-- The powers of two from `2^(-126)` to `2^127` are binary32 values. -/
theorem round32_zpow {k : ℤ} (hk : -126 ≤ k) (hk2 : k ≤ 127) :
    round32 (2 ^ k) = Ext.fin (2 ^ k) := by
  have hpos : (0 : ℚ) < 2 ^ k := zpow_pos (by norm_num) k
  rw [round32_of_nonneg (le_of_lt hpos), roundMag_zpow hk, if_neg]
  rw [not_le]
  have h1 : (2 : ℚ) ^ k < 2 ^ (128 : ℤ) := zpow_lt_zpow_right₀ (by norm_num) (by omega)
  have h2 : (2 : ℚ) ^ (128 : ℤ) = 2 ^ 128 := by norm_cast
  rwa [h2] at h1

/-- One is a binary32 value. -/
theorem round32_one : round32 1 = Ext.fin 1 := by
  have h := round32_zpow (k := 0) (by norm_num) (by norm_num)
  simpa using h

/-- The binary32 quotient of two finite values with a non-zero divisor is the
rounded exact quotient. -/
theorem Binary32.fin_div_fin (a : ℚ) {b : ℚ} (hb : b ≠ 0) :
    (Binary32.mk (Ext.fin a) / Binary32.mk (Ext.fin b) : Binary32)
      = Binary32.mk (round32 (a / b)) := by
  show Binary32.mk (Ext.round (Ext.div _ _)) = _
  simp [Ext.div, Ext.round, hb]

/-- The binary32 quotient of a non-zero finite value by itself is one. -/
theorem Binary32.fin_div_self {a : ℚ} (ha : a ≠ 0) :
    (Binary32.mk (Ext.fin a) / Binary32.mk (Ext.fin a) : Binary32)
      = Binary32.mk (Ext.fin 1) := by
  rw [Binary32.fin_div_fin a ha, div_self ha, round32_one]

/-- In binary32 the quotient of zero, of an infinity or of NaN by itself is NaN. -/
theorem Binary32.div_self_nan (a : Binary32) (h : ∀ q : ℚ, q ≠ 0 → a.toExt ≠ Ext.fin q) :
    (a / a : Binary32) = Binary32.mk Ext.nan := by
  show Binary32.mk (Ext.round (Ext.div _ _)) = _
  cases ha : a.toExt with
  | fin q =>
    have hq : q = 0 := by
      by_contra hne
      exact h q hne ha
    simp [Ext.div, Ext.round, hq]
  | inf s => simp [Ext.div, Ext.round]
  | nan => simp [Ext.div, Ext.round]

/-- In binary32 a quotient of NaN is NaN. -/
theorem Binary32.nan_div (b : Binary32) :
    (Binary32.mk Ext.nan / b : Binary32) = Binary32.mk Ext.nan := by
  show Binary32.mk (Ext.round (Ext.div _ _)) = _
  cases b.toExt <;> simp [Ext.div, Ext.round]

/-- In binary32 `+∞` divided by a positive finite value is `+∞`. -/
theorem Binary32.inf_div_fin {t : ℚ} (ht : 0 < t) :
    (Binary32.mk (Ext.inf false) / Binary32.mk (Ext.fin t) : Binary32)
      = Binary32.mk (Ext.inf false) := by
  show Binary32.mk (Ext.round (Ext.div _ _)) = _
  have hneg : ¬ t < 0 := not_lt.mpr (le_of_lt ht)
  simp [Ext.div, Ext.round, hneg]

/-- Two sample runs of the two divisions in binary32.  The sizes
`(320, 1920, 512)` give `11184811 / 34359738368`, where exact arithmetic gives
`1 / 3072`; the sizes `(2^100, 2^(-100), 2^100)` give `+∞`, the scale
overflowing. -/
theorem Binary32.step_samples :
    ((Binary32.ofRat 320 / Binary32.ofRat 1920) / Binary32.ofRat 512 : Binary32)
      = Binary32.ofRat (11184811 / 34359738368) ∧
    ((Binary32.ofRat (2 ^ (100 : ℤ)) / Binary32.ofRat (2 ^ (-100 : ℤ)))
        / Binary32.ofRat (2 ^ (100 : ℤ)) : Binary32) = Binary32.mk (Ext.inf false) := by
  have hscale : round32 (320 / 1920) = Ext.fin (11184811 / 67108864) := by
    have h := round32_eq_fin (q := 320 / 1920) (e := -3) (n := 11184811) (by norm_num)
      (by norm_num) (Or.inl (by norm_num)) (by norm_num) (by norm_num [abs_lt]) (by norm_num)
    norm_num at h ⊢
    exact h
  have hstep : round32 (11184811 / 67108864 / 512) = Ext.fin (11184811 / 34359738368) := by
    have h := round32_eq_fin (q := 11184811 / 67108864 / 512) (e := -12) (n := 11184811)
      (by norm_num) (by norm_num) (Or.inl (by norm_num)) (by norm_num)
      (by norm_num [abs_lt]) (by norm_num)
    norm_num at h ⊢
    exact h
  have hover : round32 (2 ^ (100 : ℤ) / 2 ^ (-100 : ℤ)) = Ext.inf false :=
    round32_eq_inf (q := 2 ^ (100 : ℤ) / 2 ^ (-100 : ℤ)) (e := 200) (n := 8388608)
      (by norm_num) (by norm_num) (Or.inl (by norm_num)) (by norm_num)
      (by norm_num [abs_lt]) (by norm_num)
  refine ⟨?_, ?_⟩
  · simp only [Binary32.ofRat]
    rw [Binary32.fin_div_fin _ (by norm_num), hscale, Binary32.fin_div_fin _ (by norm_num),
      hstep]
  · simp only [Binary32.ofRat]
    rw [Binary32.fin_div_fin _ (by norm_num), hover, Binary32.inf_div_fin (by norm_num)]

/-- One axis of the step in binary32, for positive finite sizes: the step is
non-negative, at least `1 / t` when `o ≤ v` and at most `1 / t` when `v ≤ o`. -/
theorem step32_bounds {v o t : ℚ} (hv : 0 < v) (ho : 0 < o) (ht : 0 < t) :
    Ext.le (Ext.fin 0)
        ((Binary32.mk (Ext.fin v) / Binary32.mk (Ext.fin o)) / Binary32.mk (Ext.fin t)).toExt
      = true ∧
    (o ≤ v →
      Ext.le (Binary32.mk (Ext.fin 1) / Binary32.mk (Ext.fin t)).toExt
        ((Binary32.mk (Ext.fin v) / Binary32.mk (Ext.fin o)) / Binary32.mk (Ext.fin t)).toExt
        = true) ∧
    (v ≤ o →
      Ext.le
        ((Binary32.mk (Ext.fin v) / Binary32.mk (Ext.fin o)) / Binary32.mk (Ext.fin t)).toExt
        (Binary32.mk (Ext.fin 1) / Binary32.mk (Ext.fin t)).toExt = true) := by
  have hvo : 0 ≤ v / o := le_of_lt (div_pos hv ho)
  have h1t : 0 ≤ 1 / t := le_of_lt (div_pos one_pos ht)
  rw [Binary32.fin_div_fin v (ne_of_gt ho), Binary32.fin_div_fin 1 (ne_of_gt ht)]
  have hone_le : o ≤ v → (Ext.fin 1).le (round32 (v / o)) = true := by
    intro h
    have := round32_mono (p := 1) (q := v / o) zero_le_one ((one_le_div ho).mpr h)
    rwa [round32_one] at this
  have hle_one : v ≤ o → (round32 (v / o)).le (Ext.fin 1) = true := by
    intro h
    have := round32_mono (p := v / o) (q := 1) hvo ((div_le_one ho).mpr h)
    rwa [round32_one] at this
  rcases round32_nonneg_cases hvo with hs | ⟨r, hr, hs⟩
  · rw [hs] at hone_le hle_one ⊢
    rw [Binary32.inf_div_fin ht]
    refine ⟨rfl, ?_, ?_⟩
    · intro _
      rcases round32_nonneg_cases h1t with h1 | ⟨r1, _, h1⟩ <;> rw [h1] <;> rfl
    · intro h
      have := hle_one h
      simp [Ext.le] at this
  · rw [hs] at hone_le hle_one ⊢
    rw [Binary32.fin_div_fin r (ne_of_gt ht)]
    have hrt : 0 ≤ r / t := div_nonneg hr (le_of_lt ht)
    refine ⟨?_, ?_, ?_⟩
    · have := round32_mono (p := 0) (q := r / t) le_rfl hrt
      rwa [round32_zero] at this
    · intro h
      have h1 : (1 : ℚ) ≤ r := by simpa [Ext.le] using hone_le h
      exact round32_mono h1t (div_le_div_of_nonneg_right h1 (le_of_lt ht))
    · intro h
      have h1 : r ≤ 1 := by simpa [Ext.le] using hle_one h
      exact round32_mono hrt (div_le_div_of_nonneg_right h1 (le_of_lt ht))

/-! ## C1: the step between output pixels -/

/-- C1: in every arithmetic, the binary32 arithmetic of the code included, and
for every input, the inputs with positive sizes in particular, the `blur_dxdy`
returned by `main_vertex` is `(video_size / output_size) / texture_size` with
the division of that arithmetic, each axis from its own components:
`blur_dxdy.x = (video_size.x / output_size.x) / texture_size.x` and
`blur_dxdy.y = (video_size.y / output_size.y) / texture_size.y`. -/
theorem blur_dxdy_eq_two_step_quotient {α : Type} [Add α] [Mul α] [Div α]
    (position color : float4 α) (tex_uv : float2 α)
    (modelViewProj : float4x4 α) (IN : input α) :
    (main_vertex position color tex_uv modelViewProj IN).blur_dxdy
      = (IN.video_size / IN.output_size) / IN.texture_size ∧
    (main_vertex position color tex_uv modelViewProj IN).blur_dxdy.x
      = (IN.video_size.x / IN.output_size.x) / IN.texture_size.x ∧
    (main_vertex position color tex_uv modelViewProj IN).blur_dxdy.y
      = (IN.video_size.y / IN.output_size.y) / IN.texture_size.y :=
  ⟨rfl, rfl, rfl⟩

/-! ## C2: the texture coordinate -/

/-- C2: whatever the arithmetic and whatever the other arguments, the `tex_uv`
field of the result is the `tex_uv` argument, both components unchanged; no
range is imposed on the coordinate. -/
theorem tex_uv_passthrough {α : Type} [Add α] [Mul α] [Div α]
    (position color : float4 α) (tex_uv : float2 α)
    (modelViewProj : float4x4 α) (IN : input α) :
    (main_vertex position color tex_uv modelViewProj IN).tex_uv = tex_uv ∧
    (main_vertex position color tex_uv modelViewProj IN).tex_uv.x = tex_uv.x ∧
    (main_vertex position color tex_uv modelViewProj IN).tex_uv.y = tex_uv.y :=
  ⟨rfl, rfl, rfl⟩

/-! ## C3: the clip-space position -/

/-- C3: the `position` field of the result is the product of `modelViewProj`
with the column vector `position`.  In any arithmetic its component `i` is the
`dot` of row `i` of the matrix with the vector, the sum of the four products
taken from left to right; over a commutative semiring it is the Mathlib product
`Matrix.mulVec` of the matrix of the rows with the vector. -/
theorem position_eq_mulVec :
    (∀ (α : Type) [Add α] [Mul α] [Div α] (position color : float4 α) (tex_uv : float2 α)
        (modelViewProj : float4x4 α) (IN : input α) (i : Fin 4),
        (main_vertex position color tex_uv modelViewProj IN).position.get i
          = (modelViewProj.row i).get 0 * position.get 0
            + (modelViewProj.row i).get 1 * position.get 1
            + (modelViewProj.row i).get 2 * position.get 2
            + (modelViewProj.row i).get 3 * position.get 3) ∧
    (∀ (α : Type) [CommSemiring α] [Div α] (position color : float4 α) (tex_uv : float2 α)
        (modelViewProj : float4x4 α) (IN : input α),
        (main_vertex position color tex_uv modelViewProj IN).position.get
          = Matrix.mulVec modelViewProj.toMatrix position.get) := by
  refine ⟨?_, ?_⟩
  · intro α _ _ _ position color tex_uv modelViewProj IN i
    fin_cases i <;> rfl
  · intro α _ _ position color tex_uv modelViewProj IN
    funext i
    fin_cases i <;>
      simp [main_vertex, mul, dot, float4.get, float4x4.row, float4x4.toMatrix,
        Matrix.mulVec, Matrix.dotProduct, Fin.sum_univ_four, add_assoc]

/-! ## C4: output of the size of the video -/

/-- C4 as stated fails when a `video_size` component is zero or infinite.
With `video_size = output_size = (0, 0)` and `texture_size = (1, 1)` the step
is the quotient `0 / 0` divided by `1`: undefined in guarded arithmetic, NaN
with the IEEE 754 special values and in binary32.  With
`video_size = output_size = (+∞, +∞)` it is `∞ / ∞` divided by `1`, NaN in
binary32.  In each case `1 / texture_size` is `1`. -/
theorem blur_dxdy_same_size_zero_video :
    (main_vertex (α := Guarded) ⟨.val 0, .val 0, .val 0, .val 1⟩
        ⟨.val 0, .val 0, .val 0, .val 0⟩ ⟨.val 0, .val 0⟩
        ⟨⟨.val 1, .val 0, .val 0, .val 0⟩, ⟨.val 0, .val 1, .val 0, .val 0⟩,
         ⟨.val 0, .val 0, .val 1, .val 0⟩, ⟨.val 0, .val 0, .val 0, .val 1⟩⟩
        { video_size := ⟨.val 0, .val 0⟩
          texture_size := ⟨.val 1, .val 1⟩
          output_size := ⟨.val 0, .val 0⟩
          frame_count := .val 0
          frame_direction := .val 1
          frame_rotation := .val 0 }).blur_dxdy
      = { x := .undef, y := .undef } ∧
    (Guarded.val 1 / Guarded.val 1 : Guarded) = .val 1 ∧
    (main_vertex (α := Ext) ⟨.fin 0, .fin 0, .fin 0, .fin 1⟩
        ⟨.fin 0, .fin 0, .fin 0, .fin 0⟩ ⟨.fin 0, .fin 0⟩
        ⟨⟨.fin 1, .fin 0, .fin 0, .fin 0⟩, ⟨.fin 0, .fin 1, .fin 0, .fin 0⟩,
         ⟨.fin 0, .fin 0, .fin 1, .fin 0⟩, ⟨.fin 0, .fin 0, .fin 0, .fin 1⟩⟩
        { video_size := ⟨.fin 0, .fin 0⟩
          texture_size := ⟨.fin 1, .fin 1⟩
          output_size := ⟨.fin 0, .fin 0⟩
          frame_count := .fin 0
          frame_direction := .fin 1
          frame_rotation := .fin 0 }).blur_dxdy
      = { x := .nan, y := .nan } ∧
    (Ext.fin 1 / Ext.fin 1 : Ext) = .fin 1 ∧
    (main_vertex (α := Binary32) ⟨.ofRat 0, .ofRat 0, .ofRat 0, .ofRat 1⟩
        ⟨.ofRat 0, .ofRat 0, .ofRat 0, .ofRat 0⟩ ⟨.ofRat 0, .ofRat 0⟩
        ⟨⟨.ofRat 1, .ofRat 0, .ofRat 0, .ofRat 0⟩, ⟨.ofRat 0, .ofRat 1, .ofRat 0, .ofRat 0⟩,
         ⟨.ofRat 0, .ofRat 0, .ofRat 1, .ofRat 0⟩, ⟨.ofRat 0, .ofRat 0, .ofRat 0, .ofRat 1⟩⟩
        { video_size := ⟨.ofRat 0, .ofRat 0⟩
          texture_size := ⟨.ofRat 1, .ofRat 1⟩
          output_size := ⟨.ofRat 0, .ofRat 0⟩
          frame_count := .ofRat 0
          frame_direction := .ofRat 1
          frame_rotation := .ofRat 0 }).blur_dxdy
      = { x := ⟨.nan⟩, y := ⟨.nan⟩ } ∧
    (main_vertex (α := Binary32) ⟨.ofRat 0, .ofRat 0, .ofRat 0, .ofRat 1⟩
        ⟨.ofRat 0, .ofRat 0, .ofRat 0, .ofRat 0⟩ ⟨.ofRat 0, .ofRat 0⟩
        ⟨⟨.ofRat 1, .ofRat 0, .ofRat 0, .ofRat 0⟩, ⟨.ofRat 0, .ofRat 1, .ofRat 0, .ofRat 0⟩,
         ⟨.ofRat 0, .ofRat 0, .ofRat 1, .ofRat 0⟩, ⟨.ofRat 0, .ofRat 0, .ofRat 0, .ofRat 1⟩⟩
        { video_size := ⟨⟨.inf false⟩, ⟨.inf false⟩⟩
          texture_size := ⟨.ofRat 1, .ofRat 1⟩
          output_size := ⟨⟨.inf false⟩, ⟨.inf false⟩⟩
          frame_count := .ofRat 0
          frame_direction := .ofRat 1
          frame_rotation := .ofRat 0 }).blur_dxdy
      = { x := ⟨.nan⟩, y := ⟨.nan⟩ } ∧
    (Binary32.ofRat 1 / Binary32.ofRat 1 : Binary32) = .ofRat 1 := by
  refine ⟨?_, ?_, ?_, ?_, ?_, ?_, ?_⟩
  · rw [main_vertex_blur_dxdy]
    simp only [Guarded.div_val_zero, Guarded.undef_div]
  · rw [Guarded.val_div_val one_ne_zero, div_one]
  · rw [main_vertex_blur_dxdy]
    show float2.mk (Ext.div (Ext.div _ _) _) (Ext.div (Ext.div _ _) _) = _
    simp [Ext.div]
  · show Ext.div _ _ = _
    simp [Ext.div]
  · rw [main_vertex_blur_dxdy]
    simp only [Binary32.div_self_nan (Binary32.ofRat 0)
      (fun q hq h => hq (Ext.fin.inj h).symm), Binary32.nan_div]
  · rw [main_vertex_blur_dxdy]
    simp only [Binary32.div_self_nan ⟨Ext.inf false⟩ (fun q _ h => Ext.noConfusion h),
      Binary32.nan_div]
  · exact Binary32.fin_div_self one_ne_zero

/-- C4, amended: in binary32, when `output_size` equals `video_size`, the
component of `blur_dxdy` on an axis is the quotient `1 / texture_size` of that
axis as soon as the `video_size` component is finite and not zero, whatever
`texture_size` is; it is NaN when the `video_size` component is zero, an
infinity or NaN. -/
theorem blur_dxdy_same_size
    (position color : float4 Binary32) (tex_uv : float2 Binary32)
    (modelViewProj : float4x4 Binary32)
    (video_size texture_size : float2 Binary32)
    (frame_count frame_direction frame_rotation : Binary32) :
    ((∃ q : ℚ, q ≠ 0 ∧ video_size.x = Binary32.ofRat q) →
      (main_vertex position color tex_uv modelViewProj
        { video_size := video_size, texture_size := texture_size, output_size := video_size
          frame_count := frame_count, frame_direction := frame_direction
          frame_rotation := frame_rotation }).blur_dxdy.x
        = Binary32.ofRat 1 / texture_size.x) ∧
    ((∃ q : ℚ, q ≠ 0 ∧ video_size.y = Binary32.ofRat q) →
      (main_vertex position color tex_uv modelViewProj
        { video_size := video_size, texture_size := texture_size, output_size := video_size
          frame_count := frame_count, frame_direction := frame_direction
          frame_rotation := frame_rotation }).blur_dxdy.y
        = Binary32.ofRat 1 / texture_size.y) ∧
    ((∀ q : ℚ, q ≠ 0 → video_size.x.toExt ≠ Ext.fin q) →
      (main_vertex position color tex_uv modelViewProj
        { video_size := video_size, texture_size := texture_size, output_size := video_size
          frame_count := frame_count, frame_direction := frame_direction
          frame_rotation := frame_rotation }).blur_dxdy.x = ⟨Ext.nan⟩) ∧
    ((∀ q : ℚ, q ≠ 0 → video_size.y.toExt ≠ Ext.fin q) →
      (main_vertex position color tex_uv modelViewProj
        { video_size := video_size, texture_size := texture_size, output_size := video_size
          frame_count := frame_count, frame_direction := frame_direction
          frame_rotation := frame_rotation }).blur_dxdy.y = ⟨Ext.nan⟩) := by
  simp only [main_vertex_blur_dxdy]
  refine ⟨?_, ?_, ?_, ?_⟩
  · rintro ⟨q, hq, hv⟩
    rw [hv]
    show (Binary32.mk (Ext.fin q) / Binary32.mk (Ext.fin q)) / _ = _
    rw [Binary32.fin_div_self hq]
    rfl
  · rintro ⟨q, hq, hv⟩
    rw [hv]
    show (Binary32.mk (Ext.fin q) / Binary32.mk (Ext.fin q)) / _ = _
    rw [Binary32.fin_div_self hq]
    rfl
  · intro h
    rw [Binary32.div_self_nan _ h, Binary32.nan_div]
  · intro h
    rw [Binary32.div_self_nan _ h, Binary32.nan_div]

/-- C4, amended, at `video_size = output_size = (320, 240)` and
`texture_size = (512, 256)`. -/
theorem blur_dxdy_same_size_witness :
    (main_vertex (α := Binary32) ⟨.ofRat 1, .ofRat 2, .ofRat 0, .ofRat 1⟩
        ⟨.ofRat 1, .ofRat 1, .ofRat 1, .ofRat 1⟩ ⟨.ofRat 0, .ofRat 1⟩
        ⟨⟨.ofRat 1, .ofRat 0, .ofRat 0, .ofRat 0⟩, ⟨.ofRat 0, .ofRat 1, .ofRat 0, .ofRat 0⟩,
         ⟨.ofRat 0, .ofRat 0, .ofRat 1, .ofRat 0⟩, ⟨.ofRat 0, .ofRat 0, .ofRat 0, .ofRat 1⟩⟩
        { video_size := ⟨.ofRat 320, .ofRat 240⟩
          texture_size := ⟨.ofRat 512, .ofRat 256⟩
          output_size := ⟨.ofRat 320, .ofRat 240⟩
          frame_count := .ofRat 7
          frame_direction := .ofRat 1
          frame_rotation := .ofRat 0 }).blur_dxdy.x
      = Binary32.ofRat 1 / Binary32.ofRat 512 ∧
    (main_vertex (α := Binary32) ⟨.ofRat 1, .ofRat 2, .ofRat 0, .ofRat 1⟩
        ⟨.ofRat 1, .ofRat 1, .ofRat 1, .ofRat 1⟩ ⟨.ofRat 0, .ofRat 1⟩
        ⟨⟨.ofRat 1, .ofRat 0, .ofRat 0, .ofRat 0⟩, ⟨.ofRat 0, .ofRat 1, .ofRat 0, .ofRat 0⟩,
         ⟨.ofRat 0, .ofRat 0, .ofRat 1, .ofRat 0⟩, ⟨.ofRat 0, .ofRat 0, .ofRat 0, .ofRat 1⟩⟩
        { video_size := ⟨.ofRat 320, .ofRat 240⟩
          texture_size := ⟨.ofRat 512, .ofRat 256⟩
          output_size := ⟨.ofRat 320, .ofRat 240⟩
          frame_count := .ofRat 7
          frame_direction := .ofRat 1
          frame_rotation := .ofRat 0 }).blur_dxdy.y
      = Binary32.ofRat 1 / Binary32.ofRat 256 :=
  have h := blur_dxdy_same_size ⟨.ofRat 1, .ofRat 2, .ofRat 0, .ofRat 1⟩
    ⟨.ofRat 1, .ofRat 1, .ofRat 1, .ofRat 1⟩ ⟨.ofRat 0, .ofRat 1⟩
    ⟨⟨.ofRat 1, .ofRat 0, .ofRat 0, .ofRat 0⟩, ⟨.ofRat 0, .ofRat 1, .ofRat 0, .ofRat 0⟩,
     ⟨.ofRat 0, .ofRat 0, .ofRat 1, .ofRat 0⟩, ⟨.ofRat 0, .ofRat 0, .ofRat 0, .ofRat 1⟩⟩
    ⟨.ofRat 320, .ofRat 240⟩ ⟨.ofRat 512, .ofRat 256⟩ (.ofRat 7) (.ofRat 1) (.ofRat 0)
  ⟨h.1 ⟨320, by norm_num, rfl⟩, h.2.1 ⟨240, by norm_num, rfl⟩⟩

/-! ## C5: downscale by two -/

/-- C5: for `video_size = (256, 256)`, `output_size = (128, 128)` and
`texture_size = (256, 256)`, and any other arguments, `blur_dxdy` is
`(2/256, 2/256)`, that is `(0.0078125, 0.0078125)`, in guarded arithmetic and
with the IEEE 754 special values alike. -/
theorem blur_dxdy_downscale_by_two :
    (∀ (position color : float4 Guarded) (tex_uv : float2 Guarded)
        (modelViewProj : float4x4 Guarded)
        (frame_count frame_direction frame_rotation : Guarded),
        (main_vertex position color tex_uv modelViewProj
            { video_size := ⟨.val 256, .val 256⟩
              texture_size := ⟨.val 256, .val 256⟩
              output_size := ⟨.val 128, .val 128⟩
              frame_count := frame_count
              frame_direction := frame_direction
              frame_rotation := frame_rotation }).blur_dxdy
          = { x := .val (2 / 256), y := .val (2 / 256) }) ∧
    (∀ (position color : float4 Ext) (tex_uv : float2 Ext)
        (modelViewProj : float4x4 Ext)
        (frame_count frame_direction frame_rotation : Ext),
        (main_vertex position color tex_uv modelViewProj
            { video_size := ⟨.fin 256, .fin 256⟩
              texture_size := ⟨.fin 256, .fin 256⟩
              output_size := ⟨.fin 128, .fin 128⟩
              frame_count := frame_count
              frame_direction := frame_direction
              frame_rotation := frame_rotation }).blur_dxdy
          = { x := .fin (2 / 256), y := .fin (2 / 256) }) ∧
    (2 / 256 : ℚ) = 0.0078125 := by
  refine ⟨?_, ?_, by norm_num⟩
  · intro position color tex_uv modelViewProj frame_count frame_direction frame_rotation
    rw [main_vertex_blur_dxdy]
    have h128 : (128 : ℚ) ≠ 0 := by norm_num
    have h256 : (256 : ℚ) ≠ 0 := by norm_num
    simp only [Guarded.val_div_val h128, Guarded.val_div_val h256]
    norm_num
  · intro position color tex_uv modelViewProj frame_count frame_direction frame_rotation
    rw [main_vertex_blur_dxdy]
    show float2.mk (Ext.div (Ext.div _ _) _) (Ext.div (Ext.div _ _) _) = _
    simp only [Ext.div]
    norm_num

/-! ## C6: a zero `texture_size` component -/

/-- C7: in guarded arithmetic, on inputs that are all defined, a component of
`blur_dxdy` is undefined if and only if the `output_size` or the `texture_size`
component on that axis is zero; otherwise it is the defined value
`(video_size / output_size) / texture_size`, also for a zero or negative
`video_size`; `position` and `tex_uv` are defined for every input. -/
theorem blur_dxdy_undef_iff
    (position color : float4 ℚ) (tex_uv : float2 ℚ) (modelViewProj : float4x4 ℚ)
    (IN : input ℚ) :
    ((main_vertex (position.map Guarded.val) (color.map Guarded.val) (tex_uv.map Guarded.val)
        (modelViewProj.map Guarded.val) (IN.map Guarded.val)).blur_dxdy.x = Guarded.undef ↔
      IN.output_size.x = 0 ∨ IN.texture_size.x = 0) ∧
    ((main_vertex (position.map Guarded.val) (color.map Guarded.val) (tex_uv.map Guarded.val)
        (modelViewProj.map Guarded.val) (IN.map Guarded.val)).blur_dxdy.y = Guarded.undef ↔
      IN.output_size.y = 0 ∨ IN.texture_size.y = 0) ∧
    (IN.output_size.x ≠ 0 → IN.texture_size.x ≠ 0 →
      (main_vertex (position.map Guarded.val) (color.map Guarded.val) (tex_uv.map Guarded.val)
        (modelViewProj.map Guarded.val) (IN.map Guarded.val)).blur_dxdy.x
        = Guarded.val ((IN.video_size.x / IN.output_size.x) / IN.texture_size.x)) ∧
    (IN.output_size.y ≠ 0 → IN.texture_size.y ≠ 0 →
      (main_vertex (position.map Guarded.val) (color.map Guarded.val) (tex_uv.map Guarded.val)
        (modelViewProj.map Guarded.val) (IN.map Guarded.val)).blur_dxdy.y
        = Guarded.val ((IN.video_size.y / IN.output_size.y) / IN.texture_size.y)) ∧
    (main_vertex (position.map Guarded.val) (color.map Guarded.val) (tex_uv.map Guarded.val)
        (modelViewProj.map Guarded.val) (IN.map Guarded.val)).position
      = (mul modelViewProj position).map Guarded.val ∧
    (main_vertex (position.map Guarded.val) (color.map Guarded.val) (tex_uv.map Guarded.val)
        (modelViewProj.map Guarded.val) (IN.map Guarded.val)).tex_uv
      = tex_uv.map Guarded.val := by
  simp only [main_vertex_blur_dxdy]
  refine ⟨?_, ?_, ?_, ?_, rfl, rfl⟩
  · simp [Guarded.div_eq_undef_iff, input.map, float2.map]
  · simp [Guarded.div_eq_undef_iff, input.map, float2.map]
  · intro ho ht
    simp only [input.map, float2.map, Guarded.val_div_val ho, Guarded.val_div_val ht]
  · intro ho ht
    simp only [input.map, float2.map, Guarded.val_div_val ho, Guarded.val_div_val ht]

/-! ## C8: no validation, no error path -/

/-- C8: `main_vertex` has no error path and validates nothing: it is a total
function into `out_vertex`, and with the IEEE 754 special values every input
whose `output_size` is not `video_size * 2^m` for any integer `m ≤ 0` still
gets `blur_dxdy = (video_size / output_size) / texture_size`, by the same
two divisions per axis. -/
theorem blur_dxdy_without_power_of_two
    (position color : float4 ℚ) (tex_uv : float2 ℚ) (modelViewProj : float4x4 ℚ)
    (IN : input ℚ)
    (_hviol : ¬ ∃ m : ℤ, m ≤ 0 ∧ IN.output_size.x = IN.video_size.x * 2 ^ m ∧
      IN.output_size.y = IN.video_size.y * 2 ^ m) :
    ∃ OUT : out_vertex Ext,
      main_vertex (position.map Ext.fin) (color.map Ext.fin) (tex_uv.map Ext.fin)
        (modelViewProj.map Ext.fin) (IN.map Ext.fin) = OUT ∧
      OUT.blur_dxdy.x
        = (Ext.fin IN.video_size.x / Ext.fin IN.output_size.x) / Ext.fin IN.texture_size.x ∧
      OUT.blur_dxdy.y
        = (Ext.fin IN.video_size.y / Ext.fin IN.output_size.y) / Ext.fin IN.texture_size.y :=
  ⟨_, rfl, rfl, rfl⟩

/-- C8 at `video_size = (1, 1)`, `output_size = (3, 3)` and
`texture_size = (4, 4)`: three is no power of two, and the step is `1/12`. -/
theorem blur_dxdy_without_power_of_two_witness :
    (¬ ∃ m : ℤ, m ≤ 0 ∧ (3 : ℚ) = 1 * 2 ^ m ∧ (3 : ℚ) = 1 * 2 ^ m) ∧
    ∃ OUT : out_vertex Ext,
      main_vertex (α := Ext) ⟨.fin 1, .fin 2, .fin 0, .fin 1⟩
        ⟨.fin 1, .fin 1, .fin 1, .fin 1⟩ ⟨.fin 0, .fin 1⟩
        ⟨⟨.fin 1, .fin 0, .fin 0, .fin 0⟩, ⟨.fin 0, .fin 1, .fin 0, .fin 0⟩,
         ⟨.fin 0, .fin 0, .fin 1, .fin 0⟩, ⟨.fin 0, .fin 0, .fin 0, .fin 1⟩⟩
        { video_size := ⟨.fin 1, .fin 1⟩
          texture_size := ⟨.fin 4, .fin 4⟩
          output_size := ⟨.fin 3, .fin 3⟩
          frame_count := .fin 7
          frame_direction := .fin 1
          frame_rotation := .fin 0 } = OUT ∧
      OUT.blur_dxdy.x = (Ext.fin 1 / Ext.fin 3) / Ext.fin 4 ∧
      OUT.blur_dxdy.y = (Ext.fin 1 / Ext.fin 3) / Ext.fin 4 := by
  have hviol : ¬ ∃ m : ℤ, m ≤ 0 ∧ (3 : ℚ) = 1 * 2 ^ m ∧ (3 : ℚ) = 1 * 2 ^ m := by
    rintro ⟨m, hm, hx, -⟩
    have h1 : (2 : ℚ) ^ m ≤ 1 := zpow_le_one_of_nonpos₀ (by norm_num) hm
    linarith
  exact ⟨hviol, blur_dxdy_without_power_of_two
    ⟨1, 2, 0, 1⟩ ⟨1, 1, 1, 1⟩ ⟨0, 1⟩
    ⟨⟨1, 0, 0, 0⟩, ⟨0, 1, 0, 0⟩, ⟨0, 0, 1, 0⟩, ⟨0, 0, 0, 1⟩⟩
    { video_size := ⟨1, 1⟩, texture_size := ⟨4, 4⟩, output_size := ⟨3, 3⟩
      frame_count := 7, frame_direction := 1, frame_rotation := 0 } hviol⟩

/-! ## C9: the unused arguments -/

/-- C9: whatever the arithmetic, two calls of `main_vertex` that agree on
`position`, `tex_uv`, `modelViewProj`, `video_size`, `texture_size` and
`output_size` return the same `out_vertex`, whatever the two `color` values
and the two `frame_count`, `frame_direction` and `frame_rotation` values are. -/
theorem main_vertex_ignores_color_and_frame {α : Type} [Add α] [Mul α] [Div α]
    (position : float4 α) (tex_uv : float2 α) (modelViewProj : float4x4 α)
    (video_size texture_size output_size : float2 α)
    (color₁ color₂ : float4 α)
    (frame_count₁ frame_direction₁ frame_rotation₁ : α)
    (frame_count₂ frame_direction₂ frame_rotation₂ : α) :
    main_vertex position color₁ tex_uv modelViewProj
        { video_size := video_size, texture_size := texture_size, output_size := output_size
          frame_count := frame_count₁, frame_direction := frame_direction₁
          frame_rotation := frame_rotation₁ }
      = main_vertex position color₂ tex_uv modelViewProj
        { video_size := video_size, texture_size := texture_size, output_size := output_size
          frame_count := frame_count₂, frame_direction := frame_direction₂
          frame_rotation := frame_rotation₂ } := rfl

/-! ## C10: the documented precondition -/

/-- C10 as stated fails in binary32, by rounding and by overflow.  With
`video_size = (640, 640)`, `output_size = (320, 320) = video_size * 2^(-1)`
and `texture_size = (720, 720)` the step is `11930465 / 4294967296` on each
axis, the binary32 value nearest to `2 / 720`, not `2 / 720`.  With
`video_size = (2^64, 2^64)`, `output_size = (2^(-64), 2^(-64)) =
video_size * 2^(-128)` and `texture_size = (2^40, 2^40)` the scale overflows
and the step is `+∞`, not `2^128 / 2^40`.  All the sizes are binary32 values. -/
theorem blur_dxdy_power_of_two_rounded :
    (isBinary32 640 ∧ isBinary32 320 ∧ isBinary32 720 ∧ (320 : ℚ) = 640 * 2 ^ (-1 : ℤ)) ∧
    (main_vertex (α := Binary32) ⟨.ofRat 1, .ofRat 2, .ofRat 0, .ofRat 1⟩
        ⟨.ofRat 1, .ofRat 1, .ofRat 1, .ofRat 1⟩ ⟨.ofRat 0, .ofRat 1⟩
        ⟨⟨.ofRat 1, .ofRat 0, .ofRat 0, .ofRat 0⟩, ⟨.ofRat 0, .ofRat 1, .ofRat 0, .ofRat 0⟩,
         ⟨.ofRat 0, .ofRat 0, .ofRat 1, .ofRat 0⟩, ⟨.ofRat 0, .ofRat 0, .ofRat 0, .ofRat 1⟩⟩
        { video_size := ⟨.ofRat 640, .ofRat 640⟩
          texture_size := ⟨.ofRat 720, .ofRat 720⟩
          output_size := ⟨.ofRat 320, .ofRat 320⟩
          frame_count := .ofRat 7
          frame_direction := .ofRat 1
          frame_rotation := .ofRat 0 }).blur_dxdy
      = { x := .ofRat (11930465 / 4294967296), y := .ofRat (11930465 / 4294967296) } ∧
    (11930465 / 4294967296 : ℚ) ≠ 2 ^ (-(-1 : ℤ)) / 720 ∧
    (isBinary32 (2 ^ (64 : ℤ)) ∧ isBinary32 (2 ^ (-64 : ℤ)) ∧ isBinary32 (2 ^ (40 : ℤ)) ∧
      (2 ^ (-64 : ℤ) : ℚ) = 2 ^ (64 : ℤ) * 2 ^ (-128 : ℤ)) ∧
    (main_vertex (α := Binary32) ⟨.ofRat 1, .ofRat 2, .ofRat 0, .ofRat 1⟩
        ⟨.ofRat 1, .ofRat 1, .ofRat 1, .ofRat 1⟩ ⟨.ofRat 0, .ofRat 1⟩
        ⟨⟨.ofRat 1, .ofRat 0, .ofRat 0, .ofRat 0⟩, ⟨.ofRat 0, .ofRat 1, .ofRat 0, .ofRat 0⟩,
         ⟨.ofRat 0, .ofRat 0, .ofRat 1, .ofRat 0⟩, ⟨.ofRat 0, .ofRat 0, .ofRat 0, .ofRat 1⟩⟩
        { video_size := ⟨.ofRat (2 ^ (64 : ℤ)), .ofRat (2 ^ (64 : ℤ))⟩
          texture_size := ⟨.ofRat (2 ^ (40 : ℤ)), .ofRat (2 ^ (40 : ℤ))⟩
          output_size := ⟨.ofRat (2 ^ (-64 : ℤ)), .ofRat (2 ^ (-64 : ℤ))⟩
          frame_count := .ofRat 7
          frame_direction := .ofRat 1
          frame_rotation := .ofRat 0 }).blur_dxdy
      = { x := ⟨.inf false⟩, y := ⟨.inf false⟩ } := by
  have h640 : isBinary32 640 := by
    have h := round32_eq_fin (q := 640) (e := 9) (n := 10485760) (by norm_num) (by norm_num)
      (Or.inl (by norm_num)) (by norm_num) (by norm_num [abs_lt]) (by norm_num)
    unfold isBinary32
    norm_num at h ⊢
    exact h
  have h320 : isBinary32 320 := by
    have h := round32_eq_fin (q := 320) (e := 8) (n := 10485760) (by norm_num) (by norm_num)
      (Or.inl (by norm_num)) (by norm_num) (by norm_num [abs_lt]) (by norm_num)
    unfold isBinary32
    norm_num at h ⊢
    exact h
  have h720 : isBinary32 720 := by
    have h := round32_eq_fin (q := 720) (e := 9) (n := 11796480) (by norm_num) (by norm_num)
      (Or.inl (by norm_num)) (by norm_num) (by norm_num [abs_lt]) (by norm_num)
    unfold isBinary32
    norm_num at h ⊢
    exact h
  have hscale : round32 (640 / 320) = Ext.fin 2 := by
    have h := round32_eq_fin (q := 640 / 320) (e := 1) (n := 8388608) (by norm_num)
      (by norm_num) (Or.inl (by norm_num)) (by norm_num) (by norm_num [abs_lt]) (by norm_num)
    norm_num at h ⊢
    exact h
  have hstep : round32 (2 / 720) = Ext.fin (11930465 / 4294967296) := by
    have h := round32_eq_fin (q := 2 / 720) (e := -9) (n := 11930465) (by norm_num)
      (by norm_num) (Or.inl (by norm_num)) (by norm_num) (by norm_num [abs_lt]) (by norm_num)
    norm_num at h ⊢
    exact h
  have hover : round32 (2 ^ (64 : ℤ) / 2 ^ (-64 : ℤ)) = Ext.inf false :=
    round32_eq_inf (q := 2 ^ (64 : ℤ) / 2 ^ (-64 : ℤ)) (e := 128) (n := 8388608)
      (by norm_num) (by norm_num) (Or.inl (by norm_num)) (by norm_num)
      (by norm_num [abs_lt]) (by norm_num)
  refine ⟨⟨h640, h320, h720, by norm_num⟩, ?_, by norm_num,
    ⟨round32_zpow (by norm_num) (by norm_num), round32_zpow (by norm_num) (by norm_num),
      round32_zpow (by norm_num) (by norm_num), by norm_num⟩, ?_⟩
  · rw [main_vertex_blur_dxdy]
    simp only [Binary32.ofRat]
    rw [Binary32.fin_div_fin 640 (by norm_num), hscale, Binary32.fin_div_fin 2 (by norm_num),
      hstep]
  · rw [main_vertex_blur_dxdy]
    simp only [Binary32.ofRat]
    rw [Binary32.fin_div_fin _ (by norm_num), hover, Binary32.inf_div_fin (by norm_num)]

/-- C10, amended: in binary32, for an integer `m` with `-127 ≤ m ≤ 0`, finite
non-zero `video_size` and `texture_size` components and
`output_size = video_size * 2^m`, the scale is `2^(-m)` exactly and each
component of `blur_dxdy` is the binary32 value nearest to
`2^(-m) / texture_size`; it is `2^(-m) / texture_size` itself when that
quotient is a binary32 value. -/
theorem blur_dxdy_power_of_two
    (position color : float4 Binary32) (tex_uv : float2 Binary32)
    (modelViewProj : float4x4 Binary32)
    (m : ℤ) (vx vy tx ty : ℚ) (frame_count frame_direction frame_rotation : Binary32)
    (hm : m ≤ 0) (hm2 : -127 ≤ m) (hvx : vx ≠ 0) (hvy : vy ≠ 0)
    (htx : tx ≠ 0) (hty : ty ≠ 0) :
    (main_vertex position color tex_uv modelViewProj
        { video_size := ⟨.ofRat vx, .ofRat vy⟩
          texture_size := ⟨.ofRat tx, .ofRat ty⟩
          output_size := ⟨.ofRat (vx * 2 ^ m), .ofRat (vy * 2 ^ m)⟩
          frame_count := frame_count
          frame_direction := frame_direction
          frame_rotation := frame_rotation }).blur_dxdy
      = { x := ⟨round32 (2 ^ (-m) / tx)⟩, y := ⟨round32 (2 ^ (-m) / ty)⟩ } ∧
    (isBinary32 (2 ^ (-m) / tx) →
      (main_vertex position color tex_uv modelViewProj
        { video_size := ⟨.ofRat vx, .ofRat vy⟩
          texture_size := ⟨.ofRat tx, .ofRat ty⟩
          output_size := ⟨.ofRat (vx * 2 ^ m), .ofRat (vy * 2 ^ m)⟩
          frame_count := frame_count
          frame_direction := frame_direction
          frame_rotation := frame_rotation }).blur_dxdy.x = .ofRat (2 ^ (-m) / tx)) ∧
    (isBinary32 (2 ^ (-m) / ty) →
      (main_vertex position color tex_uv modelViewProj
        { video_size := ⟨.ofRat vx, .ofRat vy⟩
          texture_size := ⟨.ofRat tx, .ofRat ty⟩
          output_size := ⟨.ofRat (vx * 2 ^ m), .ofRat (vy * 2 ^ m)⟩
          frame_count := frame_count
          frame_direction := frame_direction
          frame_rotation := frame_rotation }).blur_dxdy.y = .ofRat (2 ^ (-m) / ty)) := by
  have h2 : (2 : ℚ) ^ m ≠ 0 := zpow_ne_zero m (by norm_num)
  have hsc : ∀ v : ℚ, v ≠ 0 → v / (v * 2 ^ m) = 2 ^ (-m) := by
    intro v hv
    rw [zpow_neg]
    field_simp
  have hpow : round32 (2 ^ (-m)) = Ext.fin (2 ^ (-m)) := round32_zpow (by omega) (by omega)
  have hmain :
      (main_vertex position color tex_uv modelViewProj
        { video_size := ⟨.ofRat vx, .ofRat vy⟩
          texture_size := ⟨.ofRat tx, .ofRat ty⟩
          output_size := ⟨.ofRat (vx * 2 ^ m), .ofRat (vy * 2 ^ m)⟩
          frame_count := frame_count
          frame_direction := frame_direction
          frame_rotation := frame_rotation }).blur_dxdy
        = { x := ⟨round32 (2 ^ (-m) / tx)⟩, y := ⟨round32 (2 ^ (-m) / ty)⟩ } := by
    rw [main_vertex_blur_dxdy]
    simp only [Binary32.ofRat]
    rw [Binary32.fin_div_fin vx (mul_ne_zero hvx h2), Binary32.fin_div_fin vy (mul_ne_zero hvy h2),
      hsc vx hvx, hsc vy hvy, hpow, Binary32.fin_div_fin _ htx, Binary32.fin_div_fin _ hty]
  refine ⟨hmain, ?_, ?_⟩
  · intro h
    rw [hmain]
    exact congrArg Binary32.mk h
  · intro h
    rw [hmain]
    exact congrArg Binary32.mk h

/-- C10, amended, at `m = -1`, `video_size = (640, 480)`,
`output_size = (320, 240)` and `texture_size = (1024, 512)`: the step is the
binary32 value nearest to `2 / texture_size`. -/
theorem blur_dxdy_power_of_two_witness :
    (main_vertex (α := Binary32) ⟨.ofRat 1, .ofRat 2, .ofRat 0, .ofRat 1⟩
        ⟨.ofRat 1, .ofRat 1, .ofRat 1, .ofRat 1⟩ ⟨.ofRat 0, .ofRat 1⟩
        ⟨⟨.ofRat 1, .ofRat 0, .ofRat 0, .ofRat 0⟩, ⟨.ofRat 0, .ofRat 1, .ofRat 0, .ofRat 0⟩,
         ⟨.ofRat 0, .ofRat 0, .ofRat 1, .ofRat 0⟩, ⟨.ofRat 0, .ofRat 0, .ofRat 0, .ofRat 1⟩⟩
        { video_size := ⟨.ofRat 640, .ofRat 480⟩
          texture_size := ⟨.ofRat 1024, .ofRat 512⟩
          output_size := ⟨.ofRat (640 * 2 ^ (-1 : ℤ)), .ofRat (480 * 2 ^ (-1 : ℤ))⟩
          frame_count := .ofRat 7
          frame_direction := .ofRat 1
          frame_rotation := .ofRat 0 }).blur_dxdy
      = { x := ⟨round32 (2 ^ (-(-1 : ℤ)) / 1024)⟩, y := ⟨round32 (2 ^ (-(-1 : ℤ)) / 512)⟩ } ∧
    (640 * 2 ^ (-1 : ℤ) : ℚ) = 320 ∧ (480 * 2 ^ (-1 : ℤ) : ℚ) = 240 :=
  ⟨(blur_dxdy_power_of_two _ _ _ _ (-1) 640 480 1024 512 _ _ _
      (by norm_num) (by norm_num) (by norm_num) (by norm_num) (by norm_num) (by norm_num)).1,
    by norm_num, by norm_num⟩

/-! ## C11: the order of the two divisions -/

/-- C11: in exact arithmetic, for non-zero `output_size` and `texture_size`
components, the `blur_dxdy` of `main_vertex` is defined, and it is at once
`(video_size / output_size) / texture_size`, the single quotient
`video_size / (output_size * texture_size)` and the swapped quotient
`(video_size / texture_size) / output_size`, on each axis. -/
theorem blur_dxdy_division_order
    (position color : float4 ℚ) (tex_uv : float2 ℚ) (modelViewProj : float4x4 ℚ)
    (IN : input ℚ)
    (hox : IN.output_size.x ≠ 0) (hoy : IN.output_size.y ≠ 0)
    (htx : IN.texture_size.x ≠ 0) (hty : IN.texture_size.y ≠ 0) :
    (main_vertex (position.map Guarded.val) (color.map Guarded.val) (tex_uv.map Guarded.val)
        (modelViewProj.map Guarded.val) (IN.map Guarded.val)).blur_dxdy
      = { x := .val ((IN.video_size.x / IN.output_size.x) / IN.texture_size.x)
          y := .val ((IN.video_size.y / IN.output_size.y) / IN.texture_size.y) } ∧
    blur_dxdy_by_product (IN.map Guarded.val)
      = (main_vertex (position.map Guarded.val) (color.map Guarded.val)
          (tex_uv.map Guarded.val) (modelViewProj.map Guarded.val)
          (IN.map Guarded.val)).blur_dxdy ∧
    blur_dxdy_swapped (IN.map Guarded.val)
      = (main_vertex (position.map Guarded.val) (color.map Guarded.val)
          (tex_uv.map Guarded.val) (modelViewProj.map Guarded.val)
          (IN.map Guarded.val)).blur_dxdy ∧
    blur_dxdy_by_product (IN.map Guarded.val)
      = { x := .val (IN.video_size.x / (IN.output_size.x * IN.texture_size.x))
          y := .val (IN.video_size.y / (IN.output_size.y * IN.texture_size.y)) } ∧
    blur_dxdy_swapped (IN.map Guarded.val)
      = { x := .val ((IN.video_size.x / IN.texture_size.x) / IN.output_size.x)
          y := .val ((IN.video_size.y / IN.texture_size.y) / IN.output_size.y) } := by
  have hmain :
      (main_vertex (position.map Guarded.val) (color.map Guarded.val) (tex_uv.map Guarded.val)
          (modelViewProj.map Guarded.val) (IN.map Guarded.val)).blur_dxdy
        = { x := .val ((IN.video_size.x / IN.output_size.x) / IN.texture_size.x)
            y := .val ((IN.video_size.y / IN.output_size.y) / IN.texture_size.y) } := by
    rw [main_vertex_blur_dxdy]
    simp only [input.map, float2.map, Guarded.val_div_val hox, Guarded.val_div_val hoy,
      Guarded.val_div_val htx, Guarded.val_div_val hty]
  have hprod :
      blur_dxdy_by_product (IN.map Guarded.val)
        = { x := .val (IN.video_size.x / (IN.output_size.x * IN.texture_size.x))
            y := .val (IN.video_size.y / (IN.output_size.y * IN.texture_size.y)) } := by
    show float2.mk (_ / (_ * _)) (_ / (_ * _)) = _
    simp only [input.map, float2.map, Guarded.val_mul_val,
      Guarded.val_div_val (mul_ne_zero hox htx), Guarded.val_div_val (mul_ne_zero hoy hty)]
  have hswap :
      blur_dxdy_swapped (IN.map Guarded.val)
        = { x := .val ((IN.video_size.x / IN.texture_size.x) / IN.output_size.x)
            y := .val ((IN.video_size.y / IN.texture_size.y) / IN.output_size.y) } := by
    show float2.mk (_ / _ / _) (_ / _ / _) = _
    simp only [input.map, float2.map, Guarded.val_div_val hox, Guarded.val_div_val hoy,
      Guarded.val_div_val htx, Guarded.val_div_val hty]
  refine ⟨hmain, ?_, ?_, hprod, hswap⟩
  · rw [hmain, hprod, div_div, div_div]
  · rw [hmain, hswap, div_right_comm IN.video_size.x, div_right_comm IN.video_size.y]

/-- C11 at `video_size = (640, 480)`, `output_size = (320, 240)` and
`texture_size = (1024, 512)`; a negative `video_size` would do as well. -/
theorem blur_dxdy_division_order_witness :
    (main_vertex (α := Guarded) ⟨.val 1, .val 2, .val 0, .val 1⟩
        ⟨.val 1, .val 1, .val 1, .val 1⟩ ⟨.val 0, .val 1⟩
        ⟨⟨.val 1, .val 0, .val 0, .val 0⟩, ⟨.val 0, .val 1, .val 0, .val 0⟩,
         ⟨.val 0, .val 0, .val 1, .val 0⟩, ⟨.val 0, .val 0, .val 0, .val 1⟩⟩
        { video_size := ⟨.val 640, .val 480⟩
          texture_size := ⟨.val 1024, .val 512⟩
          output_size := ⟨.val 320, .val 240⟩
          frame_count := .val 7
          frame_direction := .val 1
          frame_rotation := .val 0 }).blur_dxdy
      = { x := .val ((640 / 320) / 1024), y := .val ((480 / 240) / 512) } ∧
    blur_dxdy_by_product (α := Guarded)
        { video_size := ⟨.val 640, .val 480⟩
          texture_size := ⟨.val 1024, .val 512⟩
          output_size := ⟨.val 320, .val 240⟩
          frame_count := .val 7
          frame_direction := .val 1
          frame_rotation := .val 0 }
      = { x := .val (640 / (320 * 1024)), y := .val (480 / (240 * 512)) } ∧
    blur_dxdy_swapped (α := Guarded)
        { video_size := ⟨.val 640, .val 480⟩
          texture_size := ⟨.val 1024, .val 512⟩
          output_size := ⟨.val 320, .val 240⟩
          frame_count := .val 7
          frame_direction := .val 1
          frame_rotation := .val 0 }
      = { x := .val ((640 / 1024) / 320), y := .val ((480 / 512) / 240) } :=
  have h := blur_dxdy_division_order
    ⟨1, 2, 0, 1⟩ ⟨1, 1, 1, 1⟩ ⟨0, 1⟩
    ⟨⟨1, 0, 0, 0⟩, ⟨0, 1, 0, 0⟩, ⟨0, 0, 1, 0⟩, ⟨0, 0, 0, 1⟩⟩
    { video_size := ⟨640, 480⟩, texture_size := ⟨1024, 512⟩, output_size := ⟨320, 240⟩
      frame_count := 7, frame_direction := 1, frame_rotation := 0 }
    (by norm_num) (by norm_num) (by norm_num) (by norm_num)
  ⟨h.1, h.2.2.2.1, h.2.2.2.2⟩

/-! ## C12: one step for the whole draw call -/

/-- C12: whatever the arithmetic, two calls of `main_vertex` with the same
`video_size`, `texture_size` and `output_size` return the same `blur_dxdy`,
whatever the two `position`, `color`, `tex_uv` and `modelViewProj` values (and
the two `frame_count`, `frame_direction`, `frame_rotation` values) are; and
`blur_dxdy.x` is the same for two calls that agree on the `x` components of the
three sizes only, `blur_dxdy.y` for two calls that agree on the `y` components
only. -/
theorem blur_dxdy_constant_per_draw {α : Type} [Add α] [Mul α] [Div α]
    (position₁ position₂ color₁ color₂ : float4 α) (tex_uv₁ tex_uv₂ : float2 α)
    (modelViewProj₁ modelViewProj₂ : float4x4 α)
    (frame_count₁ frame_direction₁ frame_rotation₁ : α)
    (frame_count₂ frame_direction₂ frame_rotation₂ : α) :
    (∀ video_size texture_size output_size : float2 α,
      (main_vertex position₁ color₁ tex_uv₁ modelViewProj₁
          { video_size := video_size, texture_size := texture_size
            output_size := output_size, frame_count := frame_count₁
            frame_direction := frame_direction₁, frame_rotation := frame_rotation₁ }).blur_dxdy
        = (main_vertex position₂ color₂ tex_uv₂ modelViewProj₂
          { video_size := video_size, texture_size := texture_size
            output_size := output_size, frame_count := frame_count₂
            frame_direction := frame_direction₂
            frame_rotation := frame_rotation₂ }).blur_dxdy) ∧
    (∀ vx tx ox vy₁ ty₁ oy₁ vy₂ ty₂ oy₂ : α,
      (main_vertex position₁ color₁ tex_uv₁ modelViewProj₁
          { video_size := ⟨vx, vy₁⟩, texture_size := ⟨tx, ty₁⟩
            output_size := ⟨ox, oy₁⟩, frame_count := frame_count₁
            frame_direction := frame_direction₁
            frame_rotation := frame_rotation₁ }).blur_dxdy.x
        = (main_vertex position₂ color₂ tex_uv₂ modelViewProj₂
          { video_size := ⟨vx, vy₂⟩, texture_size := ⟨tx, ty₂⟩
            output_size := ⟨ox, oy₂⟩, frame_count := frame_count₂
            frame_direction := frame_direction₂
            frame_rotation := frame_rotation₂ }).blur_dxdy.x) ∧
    (∀ vy ty oy vx₁ tx₁ ox₁ vx₂ tx₂ ox₂ : α,
      (main_vertex position₁ color₁ tex_uv₁ modelViewProj₁
          { video_size := ⟨vx₁, vy⟩, texture_size := ⟨tx₁, ty⟩
            output_size := ⟨ox₁, oy⟩, frame_count := frame_count₁
            frame_direction := frame_direction₁
            frame_rotation := frame_rotation₁ }).blur_dxdy.y
        = (main_vertex position₂ color₂ tex_uv₂ modelViewProj₂
          { video_size := ⟨vx₂, vy⟩, texture_size := ⟨tx₂, ty⟩
            output_size := ⟨ox₂, oy⟩, frame_count := frame_count₂
            frame_direction := frame_direction₂
            frame_rotation := frame_rotation₂ }).blur_dxdy.y) :=
  ⟨fun _ _ _ => rfl, fun _ _ _ _ _ _ _ _ _ => rfl, fun _ _ _ _ _ _ _ _ _ => rfl⟩

/-! ## C13: the size of the step -/

/-- C13 as stated fails in binary32, by underflow and by rounding.  With
`video_size = (2^(-100), 2^(-100))`, `output_size = (2^100, 2^100)` and
`texture_size = (2^(-100), 2^(-100))` the scale underflows and the step is
`0`, not strictly positive.  With `video_size = (16777215, 16777215)`,
`output_size = (16777216, 16777216)` and `texture_size = (25, 25)` the pass
upsizes, yet the step is `5368709 / 134217728`, which is the binary32
quotient `1 / 25` itself: it is at least `1 / texture_size` and not strictly
below it.  All the sizes are positive binary32 values. -/
theorem blur_dxdy_underflow_and_tie :
    (isBinary32 (2 ^ (-100 : ℤ)) ∧ isBinary32 (2 ^ (100 : ℤ))) ∧
    (main_vertex (α := Binary32) ⟨.ofRat 1, .ofRat 2, .ofRat 0, .ofRat 1⟩
        ⟨.ofRat 1, .ofRat 1, .ofRat 1, .ofRat 1⟩ ⟨.ofRat 0, .ofRat 1⟩
        ⟨⟨.ofRat 1, .ofRat 0, .ofRat 0, .ofRat 0⟩, ⟨.ofRat 0, .ofRat 1, .ofRat 0, .ofRat 0⟩,
         ⟨.ofRat 0, .ofRat 0, .ofRat 1, .ofRat 0⟩, ⟨.ofRat 0, .ofRat 0, .ofRat 0, .ofRat 1⟩⟩
        { video_size := ⟨.ofRat (2 ^ (-100 : ℤ)), .ofRat (2 ^ (-100 : ℤ))⟩
          texture_size := ⟨.ofRat (2 ^ (-100 : ℤ)), .ofRat (2 ^ (-100 : ℤ))⟩
          output_size := ⟨.ofRat (2 ^ (100 : ℤ)), .ofRat (2 ^ (100 : ℤ))⟩
          frame_count := .ofRat 7
          frame_direction := .ofRat 1
          frame_rotation := .ofRat 0 }).blur_dxdy
      = { x := .ofRat 0, y := .ofRat 0 } ∧
    (isBinary32 16777215 ∧ isBinary32 16777216 ∧ isBinary32 25 ∧
      (16777215 : ℚ) < 16777216) ∧
    (main_vertex (α := Binary32) ⟨.ofRat 1, .ofRat 2, .ofRat 0, .ofRat 1⟩
        ⟨.ofRat 1, .ofRat 1, .ofRat 1, .ofRat 1⟩ ⟨.ofRat 0, .ofRat 1⟩
        ⟨⟨.ofRat 1, .ofRat 0, .ofRat 0, .ofRat 0⟩, ⟨.ofRat 0, .ofRat 1, .ofRat 0, .ofRat 0⟩,
         ⟨.ofRat 0, .ofRat 0, .ofRat 1, .ofRat 0⟩, ⟨.ofRat 0, .ofRat 0, .ofRat 0, .ofRat 1⟩⟩
        { video_size := ⟨.ofRat 16777215, .ofRat 16777215⟩
          texture_size := ⟨.ofRat 25, .ofRat 25⟩
          output_size := ⟨.ofRat 16777216, .ofRat 16777216⟩
          frame_count := .ofRat 7
          frame_direction := .ofRat 1
          frame_rotation := .ofRat 0 }).blur_dxdy
      = { x := .ofRat (5368709 / 134217728), y := .ofRat (5368709 / 134217728) } ∧
    (Binary32.ofRat 1 / Binary32.ofRat 25 : Binary32) = .ofRat (5368709 / 134217728) := by
  have hunder : round32 (2 ^ (-100 : ℤ) / 2 ^ (100 : ℤ)) = Ext.fin 0 := by
    have h := round32_eq_fin (q := 2 ^ (-100 : ℤ) / 2 ^ (100 : ℤ)) (e := -126) (n := 0)
      (by norm_num) (by norm_num) (Or.inr rfl) (by norm_num) (by norm_num [abs_lt])
      (by norm_num)
    norm_num at h ⊢
    exact h
  have hbig : isBinary32 16777215 := by
    have h := round32_eq_fin (q := 16777215) (e := 23) (n := 16777215) (by norm_num)
      (by norm_num) (Or.inl (by norm_num)) (by norm_num) (by norm_num [abs_lt]) (by norm_num)
    unfold isBinary32
    norm_num at h ⊢
    exact h
  have hpow : isBinary32 16777216 := by
    have h := round32_zpow (k := 24) (by norm_num) (by norm_num)
    unfold isBinary32
    norm_num at h ⊢
    exact h
  have h25 : isBinary32 25 := by
    have h := round32_eq_fin (q := 25) (e := 4) (n := 13107200) (by norm_num)
      (by norm_num) (Or.inl (by norm_num)) (by norm_num) (by norm_num [abs_lt]) (by norm_num)
    unfold isBinary32
    norm_num at h ⊢
    exact h
  have hscale : round32 (16777215 / 16777216) = Ext.fin (16777215 / 16777216) := by
    have h := round32_eq_fin (q := 16777215 / 16777216) (e := -1) (n := 16777215)
      (by norm_num) (by norm_num) (Or.inl (by norm_num)) (by norm_num)
      (by norm_num [abs_lt]) (by norm_num)
    norm_num at h ⊢
    exact h
  have hstep : round32 (16777215 / 16777216 / 25) = Ext.fin (5368709 / 134217728) := by
    have h := round32_eq_fin (q := 16777215 / 16777216 / 25) (e := -5) (n := 10737418)
      (by norm_num) (by norm_num) (Or.inl (by norm_num)) (by norm_num)
      (by norm_num [abs_lt]) (by norm_num)
    norm_num at h ⊢
    exact h
  have htexel : round32 (1 / 25) = Ext.fin (5368709 / 134217728) := by
    have h := round32_eq_fin (q := 1 / 25) (e := -5) (n := 10737418)
      (by norm_num) (by norm_num) (Or.inl (by norm_num)) (by norm_num)
      (by norm_num [abs_lt]) (by norm_num)
    norm_num at h ⊢
    exact h
  refine ⟨⟨round32_zpow (by norm_num) (by norm_num), round32_zpow (by norm_num) (by norm_num)⟩,
    ?_, ⟨hbig, hpow, h25, by norm_num⟩, ?_, ?_⟩
  · rw [main_vertex_blur_dxdy]
    simp only [Binary32.ofRat]
    rw [Binary32.fin_div_fin _ (by norm_num), hunder, Binary32.fin_div_fin _ (by norm_num),
      zero_div, round32_zero]
  · rw [main_vertex_blur_dxdy]
    simp only [Binary32.ofRat]
    rw [Binary32.fin_div_fin _ (by norm_num), hscale, Binary32.fin_div_fin _ (by norm_num),
      hstep]
  · simp only [Binary32.ofRat]
    rw [Binary32.fin_div_fin _ (by norm_num), htexel]

/-- C13, amended: in binary32, for finite positive `video_size`, `output_size`
and `texture_size` components, each component of `blur_dxdy` is not NaN and
is at least `0`; it is at least the binary32 quotient `1 / texture_size` of
its axis when `output_size ≤ video_size` there, and at most that quotient
when `video_size ≤ output_size` there. -/
theorem blur_dxdy_nonneg_and_texel_bound
    (position color : float4 Binary32) (tex_uv : float2 Binary32)
    (modelViewProj : float4x4 Binary32)
    (vx vy tx ty ox oy : ℚ) (frame_count frame_direction frame_rotation : Binary32)
    (hvx : 0 < vx) (hvy : 0 < vy) (htx : 0 < tx) (hty : 0 < ty)
    (hox : 0 < ox) (hoy : 0 < oy) :
    (Ext.le (Ext.fin 0)
        (main_vertex position color tex_uv modelViewProj
          { video_size := ⟨.ofRat vx, .ofRat vy⟩
            texture_size := ⟨.ofRat tx, .ofRat ty⟩
            output_size := ⟨.ofRat ox, .ofRat oy⟩
            frame_count := frame_count
            frame_direction := frame_direction
            frame_rotation := frame_rotation }).blur_dxdy.x.toExt = true ∧
      (ox ≤ vx →
        Ext.le (Binary32.ofRat 1 / Binary32.ofRat tx).toExt
          (main_vertex position color tex_uv modelViewProj
            { video_size := ⟨.ofRat vx, .ofRat vy⟩
              texture_size := ⟨.ofRat tx, .ofRat ty⟩
              output_size := ⟨.ofRat ox, .ofRat oy⟩
              frame_count := frame_count
              frame_direction := frame_direction
              frame_rotation := frame_rotation }).blur_dxdy.x.toExt = true) ∧
      (vx ≤ ox →
        Ext.le
          (main_vertex position color tex_uv modelViewProj
            { video_size := ⟨.ofRat vx, .ofRat vy⟩
              texture_size := ⟨.ofRat tx, .ofRat ty⟩
              output_size := ⟨.ofRat ox, .ofRat oy⟩
              frame_count := frame_count
              frame_direction := frame_direction
              frame_rotation := frame_rotation }).blur_dxdy.x.toExt
          (Binary32.ofRat 1 / Binary32.ofRat tx).toExt = true)) ∧
    (Ext.le (Ext.fin 0)
        (main_vertex position color tex_uv modelViewProj
          { video_size := ⟨.ofRat vx, .ofRat vy⟩
            texture_size := ⟨.ofRat tx, .ofRat ty⟩
            output_size := ⟨.ofRat ox, .ofRat oy⟩
            frame_count := frame_count
            frame_direction := frame_direction
            frame_rotation := frame_rotation }).blur_dxdy.y.toExt = true ∧
      (oy ≤ vy →
        Ext.le (Binary32.ofRat 1 / Binary32.ofRat ty).toExt
          (main_vertex position color tex_uv modelViewProj
            { video_size := ⟨.ofRat vx, .ofRat vy⟩
              texture_size := ⟨.ofRat tx, .ofRat ty⟩
              output_size := ⟨.ofRat ox, .ofRat oy⟩
              frame_count := frame_count
              frame_direction := frame_direction
              frame_rotation := frame_rotation }).blur_dxdy.y.toExt = true) ∧
      (vy ≤ oy →
        Ext.le
          (main_vertex position color tex_uv modelViewProj
            { video_size := ⟨.ofRat vx, .ofRat vy⟩
              texture_size := ⟨.ofRat tx, .ofRat ty⟩
              output_size := ⟨.ofRat ox, .ofRat oy⟩
              frame_count := frame_count
              frame_direction := frame_direction
              frame_rotation := frame_rotation }).blur_dxdy.y.toExt
          (Binary32.ofRat 1 / Binary32.ofRat ty).toExt = true)) := by
  simp only [main_vertex_blur_dxdy]
  exact ⟨step32_bounds hvx hox htx, step32_bounds hvy hoy hty⟩

/-- C13, amended, at `video_size = (640, 480)`, `texture_size = (1024, 512)`
and `output_size = (320, 960)`: the pass downsizes along `x`, where the step
is at least `1 / 1024`, and upsizes along `y`, where it is at most `1 / 512`. -/
theorem blur_dxdy_nonneg_and_texel_bound_witness :
    Ext.le (Binary32.ofRat 1 / Binary32.ofRat 1024).toExt
      (main_vertex (α := Binary32) ⟨.ofRat 1, .ofRat 2, .ofRat 0, .ofRat 1⟩
        ⟨.ofRat 1, .ofRat 1, .ofRat 1, .ofRat 1⟩ ⟨.ofRat 0, .ofRat 1⟩
        ⟨⟨.ofRat 1, .ofRat 0, .ofRat 0, .ofRat 0⟩, ⟨.ofRat 0, .ofRat 1, .ofRat 0, .ofRat 0⟩,
         ⟨.ofRat 0, .ofRat 0, .ofRat 1, .ofRat 0⟩, ⟨.ofRat 0, .ofRat 0, .ofRat 0, .ofRat 1⟩⟩
        { video_size := ⟨.ofRat 640, .ofRat 480⟩
          texture_size := ⟨.ofRat 1024, .ofRat 512⟩
          output_size := ⟨.ofRat 320, .ofRat 960⟩
          frame_count := .ofRat 7
          frame_direction := .ofRat 1
          frame_rotation := .ofRat 0 }).blur_dxdy.x.toExt = true ∧
    Ext.le
      (main_vertex (α := Binary32) ⟨.ofRat 1, .ofRat 2, .ofRat 0, .ofRat 1⟩
        ⟨.ofRat 1, .ofRat 1, .ofRat 1, .ofRat 1⟩ ⟨.ofRat 0, .ofRat 1⟩
        ⟨⟨.ofRat 1, .ofRat 0, .ofRat 0, .ofRat 0⟩, ⟨.ofRat 0, .ofRat 1, .ofRat 0, .ofRat 0⟩,
         ⟨.ofRat 0, .ofRat 0, .ofRat 1, .ofRat 0⟩, ⟨.ofRat 0, .ofRat 0, .ofRat 0, .ofRat 1⟩⟩
        { video_size := ⟨.ofRat 640, .ofRat 480⟩
          texture_size := ⟨.ofRat 1024, .ofRat 512⟩
          output_size := ⟨.ofRat 320, .ofRat 960⟩
          frame_count := .ofRat 7
          frame_direction := .ofRat 1
          frame_rotation := .ofRat 0 }).blur_dxdy.y.toExt
      (Binary32.ofRat 1 / Binary32.ofRat 512).toExt = true :=
  have h := blur_dxdy_nonneg_and_texel_bound ⟨.ofRat 1, .ofRat 2, .ofRat 0, .ofRat 1⟩
    ⟨.ofRat 1, .ofRat 1, .ofRat 1, .ofRat 1⟩ ⟨.ofRat 0, .ofRat 1⟩
    ⟨⟨.ofRat 1, .ofRat 0, .ofRat 0, .ofRat 0⟩, ⟨.ofRat 0, .ofRat 1, .ofRat 0, .ofRat 0⟩,
     ⟨.ofRat 0, .ofRat 0, .ofRat 1, .ofRat 0⟩, ⟨.ofRat 0, .ofRat 0, .ofRat 0, .ofRat 1⟩⟩
    640 480 1024 512 320 960 (.ofRat 7) (.ofRat 1) (.ofRat 0)
    (by norm_num) (by norm_num) (by norm_num) (by norm_num) (by norm_num) (by norm_num)
  ⟨h.1.2.1 (by norm_num), h.2.2.2 (by norm_num)⟩

end BlurOnePass
